import Mathlib

/-!
Verification of the Main-server federated learning aggregation server.

Shallow embedding of the store layer (utils/db_helpers.py), the retraining
trigger and cycle (learning/trainer.py, learning/trainer_dropbox.py), the
token manager (utils/token_manager.py), the Dropbox blob layer
(utils/dropbox_storage.py, utils/memory_db.py) and the HTTP endpoints in
app.py, together with theorems settling the specification claims.
-/

namespace MainServer

/-! ## Retraining trigger (learning/trainer.py, should_retrain) -/

/-- Configured retraining thresholds (config.RETRAINING_THRESHOLDS). -/
structure Thresholds where
  pending_models : Nat
  hours_since_last_training : Nat
  new_interactions : Nat
deriving DecidableEq, Repr

/-- Defaults: THRESHOLD_PENDING_MODELS=3, THRESHOLD_HOURS=12, THRESHOLD_INTERACTIONS=100. -/
def defaultThresholds : Thresholds :=
  { pending_models := 3, hours_since_last_training := 12, new_interactions := 100 }

/-- The store facts that should_retrain reads: the count of uploaded models with
incorporation_status = pending, MAX(training_date) over model_versions (none when
the table is empty), the current wall clock, and the count of interactions with
created_at after the last training date.  Times are in seconds. -/
structure RetrainFacts where
  pendingCount : Nat
  lastTrainingDate : Option Nat
  now : Nat
  newInteractions : Nat
deriving DecidableEq, Repr

/-- trainer.should_retrain: pending count reaching the threshold triggers outright;
otherwise, when a last training date exists, more than T_hours since it with at
least one pending model triggers, and failing that, at least T_interactions new
interactions with at least one pending model triggers. -/
def should_retrain (th : Thresholds) (f : RetrainFacts) : Bool :=
  if f.pendingCount ≥ th.pending_models then true
  else
    let timeFires :=
      match f.lastTrainingDate with
      | some lt => decide (f.now - lt > th.hours_since_last_training * 3600) && decide (f.pendingCount > 0)
      | none => false
    if timeFires then true
    else
      match f.lastTrainingDate with
      | some _ => decide (f.newInteractions ≥ th.new_interactions) && decide (f.pendingCount > 0)
      | none => false

/-- The trigger predicate as the claim words it: at least one pending upload and one
of the three conditions, with the time condition a non-strict comparison. -/
def claimedTrigger (th : Thresholds) (f : RetrainFacts) : Bool :=
  decide (f.pendingCount ≥ 1) &&
    (decide (f.pendingCount ≥ th.pending_models) ||
     (match f.lastTrainingDate with
      | some lt => decide (f.now - lt ≥ th.hours_since_last_training * 3600)
      | none => false) ||
     (match f.lastTrainingDate with
      | some _ => decide (f.newInteractions ≥ th.new_interactions)
      | none => false))

/-! ## Relational store for interactions and feedback (utils/db_helpers.py) -/

/-- An incoming interaction object of a /api/ai/learn payload.  Optional fields
are those the handler reads with dict.get.  The interaction id is the primary
key of the interactions table. -/
structure InteractionIn where
  id : String
  timestamp : Option String
  userMessage : Option String
  aiResponse : Option String
  detectedIntent : Option String
  confidenceScore : Option Rat
  feedbackRating : Option Int
  feedbackComment : Option String
  hasFeedback : Bool
deriving DecidableEq, Repr

/-- A /api/ai/learn request body (deviceId, appVersion, modelVersion, osVersion
plus the interactions array). -/
structure LearnPayload where
  deviceId : Option String
  appVersion : Option String
  modelVersion : Option String
  osVersion : Option String
  interactions : List InteractionIn
deriving DecidableEq, Repr

/-- A row of the interactions table (schema from init_db). created_at is the
CURRENT_TIMESTAMP default, modelled as seconds. -/
structure InteractionRow where
  device_id : String
  timestamp : Option String
  user_message : Option String
  ai_response : Option String
  detected_intent : Option String
  confidence_score : Rat
  app_version : Option String
  model_version : Option String
  os_version : Option String
  created_at : Nat
deriving DecidableEq, Repr

/-- A row of the feedback table, keyed by interaction_id. -/
structure FeedbackRow where
  rating : Option Int
  comment : Option String
  created_at : Nat
deriving DecidableEq, Repr

/-- The interactions and feedback tables, as maps keyed by the primary key. -/
@[ext]
structure DB where
  interactions : String → Option InteractionRow
  feedback : String → Option FeedbackRow

/-- The empty store. -/
def DB.empty : DB := { interactions := fun _ => none, feedback := fun _ => none }

/-- The interactions row written for one incoming interaction: the INSERT OR
REPLACE in store_interactions, with the dict.get defaults deviceId=unknown and
confidenceScore=0.0, and created_at from the CURRENT_TIMESTAMP default. -/
def interactionRowOf (now : Nat) (data : LearnPayload) (i : InteractionIn) : InteractionRow :=
  { device_id := data.deviceId.getD "unknown"
    timestamp := i.timestamp
    user_message := i.userMessage
    ai_response := i.aiResponse
    detected_intent := i.detectedIntent
    confidence_score := i.confidenceScore.getD 0
    app_version := data.appVersion
    model_version := data.modelVersion
    os_version := data.osVersion
    created_at := now }

/-- The feedback row written when an interaction carries feedback. -/
def feedbackRowOf (now : Nat) (i : InteractionIn) : FeedbackRow :=
  { rating := i.feedbackRating, comment := i.feedbackComment, created_at := now }

/-- Effect of one loop iteration of store_interactions on the working state:
INSERT OR REPLACE into interactions, then, when feedback is present, INSERT OR
REPLACE into feedback, both keyed by the interaction id. -/
def applyInteraction (now : Nat) (data : LearnPayload) (i : InteractionIn) (db : DB) : DB :=
  let db1 : DB :=
    { db with interactions := fun k =>
        if k = i.id then some (interactionRowOf now data i) else db.interactions k }
  if i.hasFeedback then
    { db1 with feedback := fun k =>
        if k = i.id then some (feedbackRowOf now i) else db1.feedback k }
  else db1

/-- The whole batch applied in order to the working state. -/
def applyBatch (now : Nat) (data : LearnPayload) (db : DB) (l : List InteractionIn) : DB :=
  l.foldl (fun d i => applyInteraction now data i d) db

/-- Countdown of the injected failure index as the loop advances. -/
def stepFail : Option Nat → Option Nat
  | none => none
  | some 0 => some 0
  | some (k + 1) => some k

/-- Loop of store_interactions inside BEGIN TRANSACTION, threading the working
state.  failAt = some k makes the SQL statements of the k-th interaction raise;
the resulting none models the exception leaving the loop. -/
def goStore (now : Nat) (data : LearnPayload) :
    Option Nat → DB → List InteractionIn → Option DB
  | _, db, [] => some db
  | failAt, db, i :: rest =>
      if failAt = some 0 then none
      else goStore now data (stepFail failAt) (applyInteraction now data i db) rest

/-- db_helpers.store_interactions: one transaction over the batch; on success the
working state is committed and the interaction count returned; on any statement
failure the transaction is rolled back (the store is unchanged) and the error is
re-raised to the caller. -/
def store_interactions (now : Nat) (failAt : Option Nat) (db : DB) (data : LearnPayload) :
    DB × Except Unit Nat :=
  match goStore now data failAt db data.interactions with
  | some db' => (db', .ok data.interactions.length)
  | none => (db, .error ())

/-! ## Uploaded models, model versions and the training cycle
(utils/db_helpers.py and learning/trainer.py) -/

/-- incorporation_status values of the uploaded_models table. -/
inductive UStatus
  | pending
  | processing
  | incorporated
  | failed
deriving DecidableEq, Repr

/-- A row of the uploaded_models table (the columns the trainer reads or writes). -/
structure UploadRow where
  device_id : String
  status : UStatus
  incorporated_in_version : Option String
  upload_date : Nat
deriving DecidableEq, Repr

/-- The tables the training cycle touches: uploaded_models as an association
list keyed by id (kept in insertion order, which is upload_date order since
rows are inserted as uploads arrive), the model_versions primary keys, and the
ensemble_models primary keys. -/
structure TrainStore where
  uploaded : List (String × UploadRow)
  modelVersions : List String
  ensembles : List String
deriving DecidableEq, Repr

/-- The empty store. -/
def TrainStore.empty : TrainStore := { uploaded := [], modelVersions := [], ensembles := [] }

/-- db_helpers.store_uploaded_model: INSERT a fresh row with the default
incorporation_status pending and no incorporated_in_version. -/
def store_uploaded_model (s : TrainStore) (id device : String) (date : Nat) : TrainStore :=
  { s with uploaded := s.uploaded ++
      [(id, { device_id := device, status := .pending,
              incorporated_in_version := none, upload_date := date })] }

/-- The SET clause of update_model_incorporation_status: with a version both
incorporation_status and incorporated_in_version are set, otherwise only the
status. -/
def updRow (st : UStatus) (version : Option String) (r : UploadRow) : UploadRow :=
  match version with
  | some v => { r with status := st, incorporated_in_version := some v }
  | none => { r with status := st }

/-- Effect of the UPDATE on a single table entry: rows whose id matches are
rewritten, others kept. -/
def updEntry (id : String) (st : UStatus) (version : Option String)
    (p : String × UploadRow) : String × UploadRow :=
  if p.1 = id then (p.1, updRow st version p.2) else p

/-- db_helpers.update_model_incorporation_status: UPDATE the row with the given
id. -/
def update_model_incorporation_status (s : TrainStore) (id : String) (st : UStatus)
    (version : Option String) : TrainStore :=
  { s with uploaded := s.uploaded.map (updEntry id st version) }

/-- db_helpers.get_pending_uploaded_models: ids of rows whose status is pending
or processing, in upload_date order. -/
def get_pending_uploaded_models (s : TrainStore) : List String :=
  (s.uploaded.filter (fun p =>
    match p.2.status with
    | .pending => true
    | .processing => true
    | _ => false)).map (fun p => p.1)

/-- db_helpers.store_model_version: one transaction inserting the model_versions
row and, when the classifier is an ensemble with component models, an
ensemble_models row.  A primary key violation on either INSERT rolls back the
whole transaction and the function returns false instead of raising. -/
def store_model_version (s : TrainStore) (version : String) (isEnsemble hasComponents : Bool) :
    TrainStore × Bool :=
  if s.modelVersions.contains version then (s, false)
  else if isEnsemble && hasComponents then
    if s.ensembles.contains version then (s, false)
    else
      ({ s with
          modelVersions := s.modelVersions ++ [version]
          ensembles := s.ensembles ++ [version] }, true)
  else ({ s with modelVersions := s.modelVersions ++ [version] }, true)

/-- Points at which an exception can escape to the catch-all of train_new_model:
during classifier.create_ensemble or during classifier.save. -/
inductive CycleFail
  | noFail
  | atEnsembleCreate
  | atSave
deriving DecidableEq, Repr

/-- trainer.train_new_model restricted to its store effects.  mv is the fresh
version the classifier assigns; dataSufficient is whether prepare_training_data
returned a dataset (otherwise the function returns at once); ensembleOk is the
result of classifier.create_ensemble.  With uploads present the cycle marks
them processing, then on ensemble success inserts the ensemble_models row
directly and marks the uploads incorporated with the version, or on ensemble
failure marks them failed; finally store_model_version records the version.
An exception at any failure point is caught by the outer handler, which only
logs and returns, so all writes made up to that point remain committed. -/
def train_new_model (s0 : TrainStore) (mv : String) (dataSufficient : Bool)
    (fail : CycleFail) (ensembleOk : Bool) : TrainStore :=
  if !dataSufficient then s0
  else
    let up := get_pending_uploaded_models s0
    if up.isEmpty then
      match fail with
      | .atSave => s0
      | _ => (store_model_version s0 mv false false).1
    else
      let s1 := up.foldl (fun s id => update_model_incorporation_status s id .processing none) s0
      match fail with
      | .atEnsembleCreate => s1
      | _ =>
        if ensembleOk then
          if s1.ensembles.contains mv then s1
          else
            let s2 := { s1 with ensembles := s1.ensembles ++ [mv] }
            let s3 := up.foldl
              (fun s id => update_model_incorporation_status s id .incorporated (some mv)) s2
            match fail with
            | .atSave => s3
            | _ => (store_model_version s3 mv true true).1
        else
          let s3 := up.foldl
            (fun s id => update_model_incorporation_status s id .failed none) s1
          match fail with
          | .atSave => s3
          | _ => (store_model_version s3 mv false false).1

/-- Status of the uploaded_models row with the given id. -/
def uploadStatus (s : TrainStore) (id : String) : Option UStatus :=
  (s.uploaded.find? (fun p => p.1 == id)).map (fun p => p.2.status)

/-- incorporated_in_version of the uploaded_models row with the given id. -/
def uploadVersion (s : TrainStore) (id : String) : Option (Option String) :=
  (s.uploaded.find? (fun p => p.1 == id)).map (fun p => p.2.incorporated_in_version)

/-! ## Executable character-list string operations

The Python code manipulates filenames with startswith, endswith, replace,
split and int().  These are modelled on the character list of a String with
structurally recursive functions so that concrete runs reduce in the kernel. -/

/-- str.startswith on character lists. -/
def charsStartWith (l p : List Char) : Bool := l.take p.length == p

/-- str.endswith on character lists. -/
def charsEndWith (l p : List Char) : Bool := l.reverse.take p.length == p.reverse

/-- Left-to-right replacement of every non-overlapping occurrence of pat by rep,
as str.replace does; the fuel argument bounds the recursion by the input length
(each step consumes at least one character for the non-empty patterns used). -/
def replaceAllAux (pat rep : List Char) : Nat → List Char → List Char
  | _, [] => []
  | 0, l => l
  | fuel + 1, c :: cs =>
      if charsStartWith (c :: cs) pat then
        rep ++ replaceAllAux pat rep fuel ((c :: cs).drop pat.length)
      else c :: replaceAllAux pat rep fuel cs

/-- str.replace(pat, rep) on character lists. -/
def replaceAll (l pat rep : List Char) : List Char := replaceAllAux pat rep l.length l

/-- str.split on a dot; like Python, the result is never empty and empty
segments are kept. -/
def splitOnDot : List Char → List (List Char)
  | [] => [[]]
  | c :: cs =>
      let r := splitOnDot cs
      if c = '.' then [] :: r
      else
        match r with
        | h :: t => (c :: h) :: t
        | [] => [[c]]

/-- Value of a decimal digit character, none for non-digits. -/
def digitVal? (c : Char) : Option Nat :=
  if '0' ≤ c ∧ c ≤ '9' then some (c.toNat - 48) else none

/-- Accumulating decimal parser. -/
def parseDigitsAux : List Char → Nat → Option Nat
  | [], acc => some acc
  | c :: cs, acc =>
      match digitVal? c with
      | some d => parseDigitsAux cs (acc * 10 + d)
      | none => none

/-- int() on a digit string: every character a digit and at least one of them. -/
def parseNatChars : List Char → Option Nat
  | [] => none
  | c :: cs => parseDigitsAux (c :: cs) 0

/-! ## Retention sweep (learning/trainer_dropbox.py, clean_old_models_dropbox;
learning/trainer.py clean_old_models has the same store effects) -/

/-- config.BASE_MODEL_NAME default. -/
def BASE_MODEL_NAME : String := "model_1.0.0.mlmodel"

/-- The state the sweep acts on: blob names in the models folder (what
list_models and delete_model see), blob names in the separate base_model
folder, and the model_versions table keys.  The sweep only ever calls
list_models and delete_model, which touch the models folder alone. -/
structure RetentionState where
  models : List String
  baseFolder : List String
  modelVersionRows : List String
deriving DecidableEq, Repr

/-- One candidate of the cleanup: a versioned model file with the timestamp
parsed from the last dot-separated component of its version. -/
structure ModelFileEntry where
  filename : String
  timestamp : Nat
deriving DecidableEq, Repr

/-- The filter of clean_old_models_dropbox over a listed filename: keep names
of the form model_*.mlmodel, skip the base model, strip the model_ prefix and
.mlmodel suffix by str.replace, and parse the last dot component as the
timestamp, skipping the file when that fails (as for uploaded user models
model_upload_device_ts.mlmodel). -/
def modelFileEntry? (n : String) : Option ModelFileEntry :=
  if charsStartWith n.data "model_".data && charsEndWith n.data ".mlmodel".data then
    if n = BASE_MODEL_NAME then none
    else
      match parseNatChars
          ((splitOnDot (replaceAll (replaceAll n.data "model_".data [])
            ".mlmodel".data [])).getLastD []) with
      | some ts => some { filename := n, timestamp := ts }
      | none => none
  else none

/-- All cleanup candidates among the listed model files. -/
def modelFileEntries (names : List String) : List ModelFileEntry :=
  names.filterMap modelFileEntry?

/-- Newest-first order of the stable sort in clean_old_models_dropbox. -/
def newestFirst : ModelFileEntry → ModelFileEntry → Prop := fun a b => b.timestamp ≤ a.timestamp

instance : DecidableRel newestFirst := fun a b => inferInstanceAs (Decidable (b.timestamp ≤ a.timestamp))

/-- The names the sweep deletes: nothing when at most keep_newest candidates
exist, otherwise everything after the keep_newest newest in the stable
descending sort by timestamp. -/
def modelsToDelete (names : List String) (keep : Nat) : List String :=
  let files := modelFileEntries names
  if files.length ≤ keep then []
  else ((List.insertionSort newestFirst files).drop keep).map (fun e => e.filename)

/-- dropbox_storage.delete_model: remove the named blob from the models folder. -/
def delete_model (s : RetentionState) (name : String) : RetentionState :=
  { s with models := s.models.filter (fun m => !(m == name)) }

/-- trainer_dropbox.clean_old_models_dropbox: list the models folder, pick the
versioned candidates, and when more than keep_newest exist delete every blob
beyond the keep_newest newest.  No database row is touched. -/
def clean_old_models_dropbox (s : RetentionState) (keep : Nat) : RetentionState :=
  (modelsToDelete s.models keep).foldl delete_model s

/-! ## Token manager (utils/token_manager.py) -/

/-- TokenManager state: tokens, app credentials, expiry (parsed to seconds),
time of the last refresh attempt and the auto_refresh flag.  Cooldown and
threshold are the hard-coded 60 and 300 seconds. -/
structure TMState where
  access_token : Option String
  refresh_token : Option String
  app_key : Option String
  app_secret : Option String
  expiry_time : Option Int
  last_refresh_attempt : Int
  auto_refresh : Bool
deriving DecidableEq, Repr

/-- refresh_threshold_seconds. -/
def refresh_threshold_seconds : Int := 300

/-- refresh_cooldown. -/
def refresh_cooldown : Int := 60

/-- TokenManager._should_refresh at the given wall-clock time. -/
def TMState.should_refresh (st : TMState) (now : Int) : Bool :=
  if st.access_token.isNone && st.refresh_token.isSome then true
  else
    match st.expiry_time with
    | some e =>
        if e ≤ now then true
        else if e - now ≤ refresh_threshold_seconds then true
        else false
    | none => st.access_token.isSome && st.refresh_token.isSome

/-- Outcome of the token-endpoint POST of _refresh_access_token. -/
inductive RefreshOutcome
  | httpError
  | ok (token : String) (expires_in : Option Int)
deriving DecidableEq, Repr

/-- TokenManager._refresh_access_token: on a 200 response store the new access
token and, when expires_in is present, expiry_time = now + expires_in, then
persist; on any other response keep the state and report failure. -/
def refresh_access_token (st : TMState) (now : Int) (outcome : RefreshOutcome) :
    TMState × Bool :=
  match outcome with
  | .httpError => (st, false)
  | .ok tok exp =>
      let st1 := { st with access_token := some tok }
      match exp with
      | some n => ({ st1 with expiry_time := some (now + n) }, true)
      | none => (st1, true)

/-- TokenManager.refresh_token_if_needed: give up inside the cooldown window
without recording an attempt; otherwise record the attempt, return success when
no refresh is needed, fail without credentials, and else run the refresh. -/
def refresh_token_if_needed (st : TMState) (now : Int) (outcome : RefreshOutcome) :
    TMState × Bool :=
  if now - st.last_refresh_attempt < refresh_cooldown then (st, false)
  else
    let st1 := { st with last_refresh_attempt := now }
    if !(st1.should_refresh now) then (st1, true)
    else if st1.refresh_token.isNone then (st1, false)
    else if st1.app_key.isNone || st1.app_secret.isNone then (st1, false)
    else refresh_access_token st1 now outcome

/-- TokenManager.get_valid_access_token: refresh when auto_refresh is on and a
refresh looks needed, then return whatever access token is now stored. -/
def get_valid_access_token (st : TMState) (now : Int) (outcome : RefreshOutcome) :
    Option String × TMState :=
  if st.auto_refresh && st.should_refresh now then
    let st1 := (refresh_token_if_needed st now outcome).1
    (st1.access_token, st1)
  else (st.access_token, st)

/-! ## Database snapshot pushes (utils/dropbox_storage.py upload_db and
utils/memory_db.py sync_memory_db_to_dropbox) -/

/-- DROPBOX_DB_SYNC_INTERVAL default (seconds). -/
def DROPBOX_DB_SYNC_INTERVAL : Int := 60

/-- State read by DropboxStorage.upload_db: the last sync stamp and whether the
local database file exists. -/
structure SyncState where
  last_db_sync : Int
  localDbExists : Bool
deriving DecidableEq, Repr

/-- DropboxStorage.upload_db: when the local file exists the files_upload call
is made unconditionally and last_db_sync is stamped; there is no check of the
sync interval before uploading.  The returned Bool is whether an upload was
performed. -/
def upload_db (st : SyncState) (now : Int) : SyncState × Bool :=
  if !st.localDbExists then (st, false)
  else ({ st with last_db_sync := now }, true)

/-- A sequence of upload_db calls at the given times; returns the final state
and the times at which an upload was performed. -/
def upload_db_trace (st : SyncState) : List Int → SyncState × List Int
  | [] => (st, [])
  | t :: ts =>
      let r := upload_db st t
      let rest := upload_db_trace r.1 ts
      (rest.1, (if r.2 then [t] else []) ++ rest.2)

/-- State of the memory_db sync path: the module-global last sync stamp and
whether the in-memory database is initialized. -/
structure MemSyncState where
  last_db_sync_time : Int
  dbInitialized : Bool
deriving DecidableEq, Repr

/-- memory_db.sync_memory_db_to_dropbox: a call within the sync interval of the
last successful sync returns false without uploading (the call is dropped, not
queued); otherwise the dump is uploaded and, on success, the stamp updated. -/
def sync_memory_db_to_dropbox (st : MemSyncState) (now : Int) (uploadOk : Bool) :
    MemSyncState × Bool :=
  if !st.dbInitialized then (st, false)
  else if now - st.last_db_sync_time < DROPBOX_DB_SYNC_INTERVAL then (st, false)
  else if uploadOk then ({ st with last_db_sync_time := now }, true)
  else (st, false)

/-- A sequence of sync calls at given times with given upload outcomes; returns
the final state and the times of the successful pushes. -/
def sync_trace (st : MemSyncState) : List (Int × Bool) → MemSyncState × List Int
  | [] => (st, [])
  | c :: cs =>
      let r := sync_memory_db_to_dropbox st c.1 c.2
      let rest := sync_trace r.1 cs
      (rest.1, (if r.2 then [c.1] else []) ++ rest.2)

/-! ## Upload endpoint (app.py upload_model) -/

/-- A POST /api/ai/upload-model request as the handler reads it: presence of the
model file part, its filename (empty when no file was selected), the form
fields, and the size of the bytes read. -/
structure UploadRequest where
  hasModelFile : Bool
  filename : String
  deviceId : Option String
  appVersion : Option String
  description : Option String
  fileSize : Nat
deriving DecidableEq, Repr

/-- HTTP statuses the handler can produce. -/
inductive HStatus
  | ok200
  | badRequest400
  | serverError500
deriving DecidableEq, Repr

/-- Observable outcome of the handler: the status and whether the blob upload
and the uploaded_models row happened. -/
structure UploadOutcome where
  status : HStatus
  blobStored : Bool
  rowStored : Bool
deriving DecidableEq, Repr

/-- config.MAX_UPLOAD_SIZE_MB default.  config.py defines it but no code path
reads it. -/
def MAX_UPLOAD_SIZE_MB : Nat := 600

/-- app.upload_model: 400 without a model part, with an empty filename, or when
the filename does not end in .mlmodel; otherwise the bytes are uploaded to the
blob store (500 when that fails) and the metadata row is inserted.  The handler
never consults the request size. -/
def upload_model (req : UploadRequest) (dropboxOk : Bool) : UploadOutcome :=
  if !req.hasModelFile then { status := .badRequest400, blobStored := false, rowStored := false }
  else if req.filename = "" then { status := .badRequest400, blobStored := false, rowStored := false }
  else if !(charsEndWith req.filename.data ".mlmodel".data) then
    { status := .badRequest400, blobStored := false, rowStored := false }
  else if !dropboxOk then { status := .serverError500, blobStored := false, rowStored := false }
  else { status := .ok200, blobStored := true, rowStored := true }

/-! ## Latest-model endpoint (app.py latest_model and get_latest_model_info) -/

/-- A row of the model_versions table. -/
structure MVRow where
  version : String
  path : String
  accuracy : Rat
  training_data_size : Nat
  training_date : String
  created_at : Nat
deriving DecidableEq, Repr

/-- The dict get_latest_model_info returns. -/
structure ModelInfo where
  version : String
  path : String
  accuracy : Rat
  training_data_size : Nat
  training_date : String
  is_ensemble : Bool
deriving DecidableEq, Repr

/-- The SELECT ... ORDER BY created_at DESC LIMIT 1 of get_latest_model_info. -/
def latestByCreatedAt : List MVRow → Option MVRow
  | [] => none
  | r :: rs =>
      match latestByCreatedAt rs with
      | none => some r
      | some b => if b.created_at ≤ r.created_at then some r else some b

/-- The fallback dict of get_latest_model_info; nowIso is the
datetime.now().isoformat() default training date. -/
def defaultModelInfo (nowIso : String) : ModelInfo :=
  { version := "1.0.0", path := "dropbox:/model_1.0.0.mlmodel", accuracy := 0,
    training_data_size := 0, training_date := nowIso, is_ensemble := false }

/-- app.get_latest_model_info: the newest model_versions row when the read
succeeds and the table is non-empty, the 1.0.0 default otherwise (a database
error is caught and falls through to the default). -/
def get_latest_model_info (dbOk : Bool) (rows : List MVRow) (nowIso : String) : ModelInfo :=
  if dbOk then
    match latestByCreatedAt rows with
    | some r =>
        { version := r.version, path := r.path, accuracy := r.accuracy,
          training_data_size := r.training_data_size, training_date := r.training_date,
          is_ensemble := false }
    | none => defaultModelInfo nowIso
  else defaultModelInfo nowIso

/-- The JSON body of GET /api/ai/latest-model. -/
structure LatestModelResponse where
  success : Bool
  message : String
  latestModelVersion : String
  modelDownloadURL : String
deriving DecidableEq, Repr

/-- app.latest_model: always a success body quoting the latest (or fallback)
version and its download URL on the request host. -/
def latest_model (dbOk : Bool) (rows : List MVRow) (nowIso host : String) : LatestModelResponse :=
  let info := get_latest_model_info dbOk rows nowIso
  { success := true, message := "Latest model info",
    latestModelVersion := info.version,
    modelDownloadURL := "https://" ++ host ++ "/api/ai/models/" ++ info.version }

/-! ## Lemmas about the ingest batch loop -/

/-- Last element of the list whose id is k, threaded through an accumulator the
way the write loop overwrites rows. -/
def lastWithId (k : String) : List InteractionIn → Option InteractionIn → Option InteractionIn
  | [], acc => acc
  | i :: rest, acc => lastWithId k rest (if i.id = k then some i else acc)

/-- Last element of the list whose id is k and which carries feedback. -/
def lastFeedbackFor (k : String) : List InteractionIn → Option InteractionIn → Option InteractionIn
  | [], acc => acc
  | i :: rest, acc =>
      lastFeedbackFor k rest (if i.id = k ∧ i.hasFeedback = true then some i else acc)

theorem lastWithId_acc (k : String) (l : List InteractionIn) :
    ∀ acc, lastWithId k l acc =
      match lastWithId k l none with
      | some j => some j
      | none => acc := by
  induction l with
  | nil => intro acc; simp [lastWithId]
  | cons i rest ih =>
      intro acc
      by_cases h : i.id = k
      · simp only [lastWithId, if_pos h]
        rw [ih (some i)]
        cases lastWithId k rest none <;> simp
      · simp only [lastWithId, if_neg h]
        rw [ih acc]

theorem lastFeedbackFor_acc (k : String) (l : List InteractionIn) :
    ∀ acc, lastFeedbackFor k l acc =
      match lastFeedbackFor k l none with
      | some j => some j
      | none => acc := by
  induction l with
  | nil => intro acc; simp [lastFeedbackFor]
  | cons i rest ih =>
      intro acc
      by_cases h : i.id = k ∧ i.hasFeedback = true
      · simp only [lastFeedbackFor, if_pos h]
        rw [ih (some i)]
        cases lastFeedbackFor k rest none <;> simp
      · simp only [lastFeedbackFor, if_neg h]
        rw [ih acc]

theorem applyBatch_interactions (now : Nat) (data : LearnPayload) (k : String)
    (l : List InteractionIn) :
    ∀ db : DB, (applyBatch now data db l).interactions k =
      match lastWithId k l none with
      | some j => some (interactionRowOf now data j)
      | none => db.interactions k := by
  induction l with
  | nil => intro db; simp [applyBatch, lastWithId]
  | cons i rest ih =>
      intro db
      have hstep : applyBatch now data db (i :: rest)
          = applyBatch now data (applyInteraction now data i db) rest := rfl
      rw [hstep, ih]
      have hone : (applyInteraction now data i db).interactions k
          = if k = i.id then some (interactionRowOf now data i) else db.interactions k := by
        unfold applyInteraction
        by_cases hf : i.hasFeedback <;> simp [hf]
      have hlast : lastWithId k (i :: rest) none
          = match lastWithId k rest none with
            | some j => some j
            | none => if i.id = k then some i else none := by
        simp only [lastWithId]
        rw [lastWithId_acc]
      rw [hlast]
      rcases hr : lastWithId k rest none with _ | j
      · rw [hone]
        by_cases h : i.id = k
        · subst h; simp
        · have h2 : ¬ (k = i.id) := fun hk => h hk.symm
          simp [h, h2]
      · rfl

theorem applyBatch_feedback (now : Nat) (data : LearnPayload) (k : String)
    (l : List InteractionIn) :
    ∀ db : DB, (applyBatch now data db l).feedback k =
      match lastFeedbackFor k l none with
      | some j => some (feedbackRowOf now j)
      | none => db.feedback k := by
  induction l with
  | nil => intro db; simp [applyBatch, lastFeedbackFor]
  | cons i rest ih =>
      intro db
      have hstep : applyBatch now data db (i :: rest)
          = applyBatch now data (applyInteraction now data i db) rest := rfl
      rw [hstep, ih]
      have hone : (applyInteraction now data i db).feedback k
          = if k = i.id ∧ i.hasFeedback = true then some (feedbackRowOf now i)
            else db.feedback k := by
        unfold applyInteraction
        by_cases hf : i.hasFeedback
        · by_cases hk : k = i.id <;> simp [hf, hk]
        · have : i.hasFeedback = false := by revert hf; cases i.hasFeedback <;> simp
          simp [this]
      have hlast : lastFeedbackFor k (i :: rest) none
          = match lastFeedbackFor k rest none with
            | some j => some j
            | none => if i.id = k ∧ i.hasFeedback = true then some i else none := by
        simp only [lastFeedbackFor]
        rw [lastFeedbackFor_acc]
      rw [hlast]
      rcases hr : lastFeedbackFor k rest none with _ | j
      · rw [hone]
        by_cases h : i.id = k ∧ i.hasFeedback = true
        · obtain ⟨hk, hfb⟩ := h
          subst hk
          simp [hfb]
        · have h2 : ¬ (k = i.id ∧ i.hasFeedback = true) := fun hk => h ⟨hk.1.symm, hk.2⟩
          simp [h, h2]
      · rfl

theorem goStore_ok (now : Nat) (data : LearnPayload) (l : List InteractionIn) :
    ∀ failAt db db', goStore now data failAt db l = some db' →
      db' = applyBatch now data db l := by
  induction l with
  | nil =>
      intro failAt db db' h
      have hnil : goStore now data failAt db [] = some db := rfl
      rw [hnil] at h
      cases h
      rfl
  | cons i rest ih =>
      intro failAt db db' h
      by_cases hf : failAt = some 0
      · simp only [goStore, if_pos hf] at h
        cases h
      · simp only [goStore, if_neg hf] at h
        exact ih (stepFail failAt) _ _ h

theorem goStore_none_fail (now : Nat) (data : LearnPayload) (l : List InteractionIn) :
    ∀ db, goStore now data none db l = some (applyBatch now data db l) := by
  induction l with
  | nil => intro db; rfl
  | cons i rest ih =>
      intro db
      have hne : (none : Option Nat) ≠ some 0 := by simp
      simp only [goStore, if_neg hne, stepFail]
      exact ih _

theorem lastWithId_of_notMem (k : String) (l : List InteractionIn)
    (h : k ∉ l.map (fun i => i.id)) : ∀ acc, lastWithId k l acc = acc := by
  induction l with
  | nil => intro acc; simp [lastWithId]
  | cons i rest ih =>
      intro acc
      simp only [List.map_cons, List.mem_cons] at h
      push_neg at h
      have hi : ¬ (i.id = k) := fun hk => h.1 hk.symm
      simp only [lastWithId, if_neg hi]
      exact ih h.2 acc

theorem lastWithId_nodup (l : List InteractionIn) (hnd : (l.map (fun i => i.id)).Nodup) :
    ∀ i ∈ l, lastWithId i.id l none = some i := by
  induction l with
  | nil => intro i hi; simp at hi
  | cons j rest ih =>
      intro i hi
      simp only [List.map_cons, List.nodup_cons] at hnd
      rcases List.mem_cons.mp hi with rfl | hrest
      · simp only [lastWithId, if_pos rfl]
        rw [lastWithId_acc, lastWithId_of_notMem i.id rest hnd.1 none]
        simp
      · have hne : j.id ≠ i.id := by
          intro he
          exact hnd.1 (he ▸ List.mem_map_of_mem (fun x => x.id) hrest)
        simp only [lastWithId, if_neg hne]
        exact ih hnd.2 i hrest

theorem lastFeedbackFor_of_notMem (k : String) (l : List InteractionIn)
    (h : k ∉ l.map (fun i => i.id)) : ∀ acc, lastFeedbackFor k l acc = acc := by
  induction l with
  | nil => intro acc; simp [lastFeedbackFor]
  | cons i rest ih =>
      intro acc
      simp only [List.map_cons, List.mem_cons] at h
      push_neg at h
      have hi : ¬ (i.id = k ∧ i.hasFeedback = true) := fun hk => h.1 hk.1.symm
      simp only [lastFeedbackFor, if_neg hi]
      exact ih h.2 acc

theorem lastFeedbackFor_nodup (l : List InteractionIn)
    (hnd : (l.map (fun i => i.id)).Nodup) :
    ∀ i ∈ l, i.hasFeedback = true → lastFeedbackFor i.id l none = some i := by
  induction l with
  | nil => intro i hi; simp at hi
  | cons j rest ih =>
      intro i hi hf
      simp only [List.map_cons, List.nodup_cons] at hnd
      rcases List.mem_cons.mp hi with rfl | hrest
      · have hc : i.id = i.id ∧ i.hasFeedback = true := ⟨rfl, hf⟩
        simp only [lastFeedbackFor, if_pos hc]
        rw [lastFeedbackFor_acc, lastFeedbackFor_of_notMem i.id rest hnd.1 none]
        simp [hf]
      · have hne : ¬ (j.id = i.id ∧ j.hasFeedback = true) := by
          rintro ⟨he, -⟩
          exact hnd.1 (he ▸ List.mem_map_of_mem (fun x => x.id) hrest)
        simp only [lastFeedbackFor, if_neg hne]
        exact ih hnd.2 i hrest hf

/-! ## Claims C1 and C6 -/

/-- A sample /api/ai/learn batch with one interaction carrying feedback. -/
def sampleInteraction : InteractionIn :=
  { id := "a", timestamp := some "t", userMessage := some "hello",
    aiResponse := some "hi", detectedIntent := some "greet", confidenceScore := some (9/10),
    feedbackRating := some 5, feedbackComment := none, hasFeedback := true }

/-- The enclosing payload of the sample batch. -/
def sampleBatch : LearnPayload :=
  { deviceId := some "dev", appVersion := some "1.1", modelVersion := some "1.0.0",
    osVersion := some "17", interactions := [sampleInteraction] }

/-- C1: an accepted /api/ai/learn batch is stored atomically: either the
transaction fails, the store is rolled back unchanged and the error re-raised,
or it commits and every interaction of the batch (whose ids are distinct, as
they are idempotency keys) is present with exactly the supplied fields, its
feedback row included when feedback was supplied. -/
theorem store_interactions_atomic (now : Nat) (failAt : Option Nat) (db : DB)
    (data : LearnPayload) (h : (data.interactions.map (fun i => i.id)).Nodup) :
    (store_interactions now failAt db data = (db, .error ())) ∨
    ((store_interactions now failAt db data).2 = .ok data.interactions.length ∧
      ∀ i ∈ data.interactions,
        (store_interactions now failAt db data).1.interactions i.id
            = some (interactionRowOf now data i) ∧
        (i.hasFeedback = true →
          (store_interactions now failAt db data).1.feedback i.id
              = some (feedbackRowOf now i))) := by
  unfold store_interactions
  rcases hg : goStore now data failAt db data.interactions with _ | db'
  · left; rfl
  · right
    refine ⟨rfl, ?_⟩
    intro i hi
    have hdb : db' = applyBatch now data db data.interactions :=
      goStore_ok now data data.interactions failAt db db' hg
    subst hdb
    constructor
    · rw [applyBatch_interactions now data i.id data.interactions db,
        lastWithId_nodup data.interactions h i hi]
    · intro hfb
      rw [applyBatch_feedback now data i.id data.interactions db,
        lastFeedbackFor_nodup data.interactions h i hi hfb]

/-- Witness for C1 at the sample batch on the empty store. -/
theorem store_interactions_atomic_witness :
    (sampleBatch.interactions.map (fun i => i.id)).Nodup ∧
    ((store_interactions 0 none DB.empty sampleBatch = (DB.empty, .error ())) ∨
      ((store_interactions 0 none DB.empty sampleBatch).2
          = .ok sampleBatch.interactions.length ∧
        ∀ i ∈ sampleBatch.interactions,
          (store_interactions 0 none DB.empty sampleBatch).1.interactions i.id
              = some (interactionRowOf 0 sampleBatch i) ∧
          (i.hasFeedback = true →
            (store_interactions 0 none DB.empty sampleBatch).1.feedback i.id
                = some (feedbackRowOf 0 i)))) :=
  ⟨by decide, store_interactions_atomic 0 none DB.empty sampleBatch (by decide)⟩

/-- C6 counterexample: resubmitting the sample batch one second later does not
reproduce the identical store state, because the re-INSERTed rows take a fresh
created_at default; the created_at column of interaction a differs. -/
theorem learn_resubmit_not_identical_cex :
    (store_interactions 1 none (store_interactions 0 none DB.empty sampleBatch).1
        sampleBatch).1
      ≠ (store_interactions 0 none DB.empty sampleBatch).1 := by
  intro hEq
  have h2 : ((store_interactions 1 none (store_interactions 0 none DB.empty sampleBatch).1
        sampleBatch).1.interactions "a").map (fun r => r.created_at)
      = ((store_interactions 0 none DB.empty sampleBatch).1.interactions "a").map
        (fun r => r.created_at) := by rw [hEq]
  have hl : ((store_interactions 1 none (store_interactions 0 none DB.empty sampleBatch).1
      sampleBatch).1.interactions "a").map (fun r => r.created_at) = some 1 := rfl
  have hr : ((store_interactions 0 none DB.empty sampleBatch).1.interactions "a").map
      (fun r => r.created_at) = some 0 := rfl
  rw [hl, hr] at h2
  simp at h2

/-- C6 amended: resubmitting the same batch is an upsert by id: the store state
after submitting at time t1 and again at time t2 equals the state after a
single submission at time t2; in particular the two states agree on every
column except created_at, and are identical when both submissions fall in the
same CURRENT_TIMESTAMP second. -/
theorem learn_resubmit_overwrite (t1 t2 : Nat) (db : DB) (data : LearnPayload) :
    (store_interactions t2 none (store_interactions t1 none db data).1 data).1
      = (store_interactions t2 none db data).1 := by
  have h1 : ∀ (t : Nat) (d : DB),
      (store_interactions t none d data).1 = applyBatch t data d data.interactions := by
    intro t d
    unfold store_interactions
    rw [goStore_none_fail]
  rw [h1, h1, h1]
  refine DB.ext ?_ ?_
  · funext k
    simp only [applyBatch_interactions]
    rcases lastWithId k data.interactions none with _ | j
    · simp only [applyBatch_interactions]
    · rfl
  · funext k
    simp only [applyBatch_feedback]
    rcases lastFeedbackFor k data.interactions none with _ | j
    · simp only [applyBatch_feedback]
    · rfl

/-! ## Claims C2 and C3 -/

theorem updEntry_key (j : String) (st : UStatus) (v : Option String)
    (p : String × UploadRow) : (updEntry j st v p).1 = p.1 := by
  unfold updEntry; split <;> rfl

theorem updRow_status (st : UStatus) (v : Option String) (r : UploadRow) :
    (updRow st v r).status = st := by
  cases v <;> rfl

theorem updEntry_status (j : String) (st : UStatus) (v : Option String)
    (p : String × UploadRow) :
    (updEntry j st v p).2.status = if p.1 = j then st else p.2.status := by
  unfold updEntry
  by_cases hj : p.1 = j
  · simp [hj, updRow_status]
  · simp [hj]

theorem find?_map_keyfix (f : String × UploadRow → String × UploadRow)
    (hk : ∀ p, (f p).1 = p.1) (id : String) (l : List (String × UploadRow)) :
    (l.map f).find? (fun p => p.1 == id) = (l.find? (fun p => p.1 == id)).map f := by
  induction l with
  | nil => rfl
  | cons p rest ih =>
      simp only [List.map_cons, List.find?_cons, hk p]
      cases hpc : (p.1 == id) with
      | true => rfl
      | false => exact ih

theorem uploadStatus_update (s : TrainStore) (j : String) (st : UStatus) (v : Option String)
    (id : String) :
    uploadStatus (update_model_incorporation_status s j st v) id
      = (uploadStatus s id).map (fun old => if j = id then st else old) := by
  unfold uploadStatus update_model_incorporation_status
  dsimp only
  rw [find?_map_keyfix (updEntry j st v) (updEntry_key j st v) id s.uploaded]
  cases hf : s.uploaded.find? (fun p => p.1 == id) with
  | none => rfl
  | some p =>
      have hp2 := List.find?_some hf
      have hpid : p.1 = id := beq_iff_eq.mp hp2
      simp only [Option.map_some']
      rw [updEntry_status]
      subst hpid
      by_cases hj : p.1 = j
      · simp [hj]
      · have hj2 : ¬ (j = p.1) := fun hh => hj hh.symm
        simp [hj, hj2]

theorem uploadStatus_foldl_update (stv : UStatus) (v : Option String) (up : List String) :
    ∀ (s : TrainStore) (id : String),
      uploadStatus
          (up.foldl (fun s j => update_model_incorporation_status s j stv v) s) id
        = (uploadStatus s id).map (fun old => if id ∈ up then stv else old) := by
  induction up with
  | nil =>
      intro s id
      cases h : uploadStatus s id <;> simp [h]
  | cons j up ih =>
      intro s id
      have hstep : (j :: up).foldl (fun s j => update_model_incorporation_status s j stv v) s
          = up.foldl (fun s j => update_model_incorporation_status s j stv v)
              (update_model_incorporation_status s j stv v) := rfl
      rw [hstep, ih, uploadStatus_update, Option.map_map]
      cases h : uploadStatus s id with
      | none => rfl
      | some old =>
          simp only [Option.map_some', Function.comp]
          by_cases h1 : id ∈ up
          · simp [h1, List.mem_cons]
          · by_cases h2 : j = id
            · simp [h1, h2, List.mem_cons]
            · have h3 : ¬ (id = j) := fun hh => h2 hh.symm
              simp [h1, h2, h3, List.mem_cons]

theorem pending_mem_get_pending (s : TrainStore) (id : String)
    (h : uploadStatus s id = some .pending) : id ∈ get_pending_uploaded_models s := by
  unfold uploadStatus at h
  unfold get_pending_uploaded_models
  cases hf : s.uploaded.find? (fun p => p.1 == id) with
  | none => rw [hf] at h; simp at h
  | some p =>
      rw [hf] at h
      simp only [Option.map_some', Option.some.injEq] at h
      have hp2 := List.find?_some hf
      have hpid : p.1 = id := beq_iff_eq.mp hp2
      have hpmem : p ∈ s.uploaded := List.mem_of_find?_eq_some hf
      have hpred : (match p.2.status with
          | UStatus.pending => true
          | UStatus.processing => true
          | _ => false) = true := by rw [h]
      have hfil : p ∈ s.uploaded.filter (fun p =>
          match p.2.status with
          | UStatus.pending => true
          | UStatus.processing => true
          | _ => false) := List.mem_filter.mpr ⟨hpmem, hpred⟩
      subst hpid
      exact List.mem_map_of_mem (fun p => p.1) hfil

/-- The concrete store of the training-cycle scenarios: one freshly uploaded
pending model u1. -/
def oneUploadStore : TrainStore := store_uploaded_model TrainStore.empty "u1" "d1" 10

/-- C2: after a cycle on one pending upload in which ensemble creation succeeds,
u1 is marked incorporated into version 1.0.100, yet no model_versions row
1.0.100 exists: train_new_model inserts the ensemble_models row itself and then
store_model_version, inserting the same ensemble_version again, violates the
primary key and rolls back the model_versions insert, returning false that the
trainer ignores.  The invariant of the claim is violated in the resulting
store, and already in the intermediate store because uploads are marked
incorporated before the version row is written. -/
theorem incorporated_version_row_missing :
    uploadStatus (train_new_model oneUploadStore "1.0.100" true .noFail true) "u1"
        = some .incorporated ∧
    uploadVersion (train_new_model oneUploadStore "1.0.100" true .noFail true) "u1"
        = some (some "1.0.100") ∧
    (train_new_model oneUploadStore "1.0.100" true .noFail true).modelVersions.contains
        "1.0.100" = false ∧
    (train_new_model oneUploadStore "1.0.100" true .noFail true).ensembles.contains
        "1.0.100" = true := by decide

/-- C3 counterexample: a cycle that fails while building the ensemble (after
step 5 marked the upload processing) leaves u1 in processing, not pending, and
the store changed: the catch-all of train_new_model only logs and returns. -/
theorem train_failure_no_rollback_cex :
    uploadStatus (train_new_model oneUploadStore "1.0.100" true .atEnsembleCreate true) "u1"
        = some .processing ∧
    train_new_model oneUploadStore "1.0.100" true .atEnsembleCreate true ≠ oneUploadStore := by
  decide

/-- C3 amended: when a cycle fails before the version row is written (here:
during ensemble creation), the writes already made stay committed; every upload
that was pending is left in processing and none is returned to pending. -/
theorem train_failure_keeps_processing (s0 : TrainStore) (mv : String) (eOk : Bool)
    (id : String) (h : uploadStatus s0 id = some .pending) :
    uploadStatus (train_new_model s0 mv true .atEnsembleCreate eOk) id
      = some .processing := by
  have hm : id ∈ get_pending_uploaded_models s0 := pending_mem_get_pending s0 id h
  have hne : (get_pending_uploaded_models s0).isEmpty = false := by
    cases hl : get_pending_uploaded_models s0 with
    | nil => rw [hl] at hm; simp at hm
    | cons a l => rfl
  unfold train_new_model
  simp only [Bool.not_true, Bool.false_eq_true, if_false, hne]
  rw [uploadStatus_foldl_update, h]
  simp [hm]

/-- Witness for C3 amended at the one-upload store. -/
theorem train_failure_keeps_processing_witness :
    uploadStatus oneUploadStore "u1" = some .pending ∧
    uploadStatus (train_new_model oneUploadStore "1.0.100" true .atEnsembleCreate true) "u1"
      = some .processing :=
  ⟨by decide, train_failure_keeps_processing oneUploadStore "1.0.100" true "u1" (by decide)⟩

/-! ## Claim C4 -/

theorem foldl_delete_models (ds : List String) :
    ∀ st : RetentionState,
      ds.foldl delete_model st
        = { st with models := st.models.filter (fun n => !(ds.contains n)) } := by
  induction ds with
  | nil =>
      intro st
      rcases st with ⟨ms, bf, rows⟩
      simp [delete_model]
  | cons d ds ih =>
      intro st
      rcases st with ⟨ms, bf, rows⟩
      have hstep : (d :: ds).foldl delete_model ⟨ms, bf, rows⟩
          = ds.foldl delete_model (delete_model ⟨ms, bf, rows⟩ d) := rfl
      rw [hstep, ih]
      unfold delete_model
      dsimp only
      rw [List.filter_filter]
      congr 1
      apply List.filter_congr
      intro a _
      simp only [List.contains_cons]
      cases (a == d) <;> cases (ds.contains a) <;> rfl

theorem modelFileEntry?_ne_base (n : String) (e : ModelFileEntry)
    (h : modelFileEntry? n = some e) : e.filename = n ∧ n ≠ BASE_MODEL_NAME := by
  unfold modelFileEntry? at h
  by_cases h1 : (charsStartWith n.data "model_".data
      && charsEndWith n.data ".mlmodel".data) = true
  · rw [if_pos h1] at h
    by_cases h2 : n = BASE_MODEL_NAME
    · rw [if_pos h2] at h; cases h
    · rw [if_neg h2] at h
      rcases hp : parseNatChars ((splitOnDot (replaceAll (replaceAll n.data "model_".data [])
          ".mlmodel".data [])).getLastD []) with _ | ts
      · rw [hp] at h; cases h
      · rw [hp] at h
        cases h
        exact ⟨rfl, h2⟩
  · rw [if_neg h1] at h; cases h

theorem base_not_in_modelsToDelete (names : List String) (keep : Nat) :
    (modelsToDelete names keep).contains BASE_MODEL_NAME = false := by
  unfold modelsToDelete
  by_cases hlen : (modelFileEntries names).length ≤ keep
  · rw [if_pos hlen]; rfl
  · rw [if_neg hlen]
    by_contra hc
    have hmem : BASE_MODEL_NAME ∈
        ((List.insertionSort newestFirst (modelFileEntries names)).drop keep).map
          (fun e => e.filename) := by
      have ht : (((List.insertionSort newestFirst (modelFileEntries names)).drop keep).map
          (fun e => e.filename)).contains BASE_MODEL_NAME = true := by
        revert hc
        cases (((List.insertionSort newestFirst (modelFileEntries names)).drop keep).map
            (fun e => e.filename)).contains BASE_MODEL_NAME <;> simp
      exact List.elem_iff.mp ht
    obtain ⟨e, he, hname⟩ := List.mem_map.mp hmem
    have he2 : e ∈ List.insertionSort newestFirst (modelFileEntries names) :=
      List.mem_of_mem_drop he
    have he3 : e ∈ modelFileEntries names := (List.mem_insertionSort newestFirst).mp he2
    obtain ⟨n, _, hn⟩ := List.mem_filterMap.mp he3
    obtain ⟨hfn, hne⟩ := modelFileEntry?_ne_base n e hn
    exact hne (hfn ▸ hname)

/-- C4 amended: the retention sweep touches neither the model_versions rows nor
the base_model folder; among the models-folder blobs it removes exactly the
computed delete set (the versioned candidates beyond the keep newest), and the
base model blob is never in that set.  Deleting the rows, which the claim also
asserts, does not happen. -/
theorem clean_old_models_dropbox_spec (s : RetentionState) (keep : Nat) :
    (clean_old_models_dropbox s keep).modelVersionRows = s.modelVersionRows ∧
    (clean_old_models_dropbox s keep).baseFolder = s.baseFolder ∧
    (clean_old_models_dropbox s keep).models
      = s.models.filter (fun n => !((modelsToDelete s.models keep).contains n)) ∧
    (modelsToDelete s.models keep).contains BASE_MODEL_NAME = false := by
  unfold clean_old_models_dropbox
  rw [foldl_delete_models]
  exact ⟨rfl, rfl, rfl, base_not_in_modelsToDelete s.models keep⟩

/-- Retention scenario: six versioned blobs with rows, the base seed blob and
row, an uploaded user model, and the base_model pointer folder. -/
def retentionStore : RetentionState :=
  { models := ["model_1.0.1.mlmodel", "model_1.0.2.mlmodel", "model_1.0.3.mlmodel",
      "model_1.0.4.mlmodel", "model_1.0.5.mlmodel", "model_1.0.6.mlmodel",
      "model_1.0.0.mlmodel", "model_upload_d1_7.mlmodel"]
    baseFolder := ["model_latest.mlmodel"]
    modelVersionRows := ["1.0.0", "1.0.1", "1.0.2", "1.0.3", "1.0.4", "1.0.5", "1.0.6"] }

/-- C4 counterexample: with MAX_MODELS_TO_KEEP = 5 and six versioned models the
sweep deletes the blob of version 1.0.1 but its model_versions row survives, so
blob and row of a swept version are not both absent as the claim requires (the
sweep deletes no rows at all). -/
theorem retention_row_survives_cex :
    (clean_old_models_dropbox retentionStore 5).models.contains "model_1.0.1.mlmodel"
        = false ∧
    (clean_old_models_dropbox retentionStore 5).modelVersionRows.contains "1.0.1" = true := by
  decide

/-! ## Claim C5 -/

/-- Store facts sitting exactly on the 12-hour boundary with one pending upload. -/
def boundaryFacts : RetrainFacts :=
  { pendingCount := 1, lastTrainingDate := some 0, now := 43200, newInteractions := 0 }

/-- C5 counterexample: exactly 12 hours after the last training with one pending
upload, the claimed non-strict time condition fires but should_retrain returns
false: the code compares time since training with a strict greater-than. -/
theorem should_retrain_boundary_cex :
    should_retrain defaultThresholds boundaryFacts = false ∧
    claimedTrigger defaultThresholds boundaryFacts = true := by decide

/-- C5 amended: with a positive pending threshold, should_retrain is true iff at
least one upload is pending and either the pending count reaches T_pending, or
a last training date exists and strictly more than T_hours have passed since
it, or a last training date exists and at least T_interactions interactions
arrived after it. -/
theorem should_retrain_iff (th : Thresholds) (f : RetrainFacts)
    (hp : 1 ≤ th.pending_models) :
    should_retrain th f = true ↔
      1 ≤ f.pendingCount ∧
        (th.pending_models ≤ f.pendingCount ∨
         (∃ lt, f.lastTrainingDate = some lt ∧
            th.hours_since_last_training * 3600 < f.now - lt) ∨
         (f.lastTrainingDate.isSome = true ∧ th.new_interactions ≤ f.newInteractions)) := by
  rcases f with ⟨pc, hlt, now, ni⟩
  cases hlt with
  | none =>
      simp only [should_retrain, claimedTrigger]
      constructor
      · intro h
        split at h
        · next hge => exact ⟨le_trans hp hge, Or.inl hge⟩
        · simp at h
      · rintro ⟨h1, h2 | h2 | h2⟩
        · simp [h2]
        · obtain ⟨lt, hlt, -⟩ := h2; cases hlt
        · simp at h2
  | some lt =>
      simp only [should_retrain]
      constructor
      · intro h
        split at h
        · next hge => exact ⟨le_trans hp hge, Or.inl hge⟩
        · next hge =>
            split at h
            · next htime =>
                simp only [Bool.and_eq_true, decide_eq_true_eq] at htime
                exact ⟨htime.2, Or.inr (Or.inl ⟨lt, rfl, htime.1⟩)⟩
            · next htime =>
                simp only [Bool.and_eq_true, decide_eq_true_eq] at h
                exact ⟨h.2, Or.inr (Or.inr ⟨rfl, h.1⟩)⟩
      · rintro ⟨h1, h2 | h2 | h2⟩
        · simp [h2]
        · obtain ⟨lt2, hlt2, hgt⟩ := h2
          cases hlt2
          split
          · rfl
          · split
            · rfl
            · next h4 =>
                exfalso
                apply h4
                simp only [Bool.and_eq_true, decide_eq_true_eq]
                exact ⟨hgt, h1⟩
        · obtain ⟨-, hni⟩ := h2
          split
          · rfl
          · split
            · rfl
            · simp only [Bool.and_eq_true, decide_eq_true_eq]
              exact ⟨hni, h1⟩

/-- Witness for C5 amended: three pending uploads trigger under the defaults. -/
theorem should_retrain_iff_witness :
    1 ≤ defaultThresholds.pending_models ∧
    should_retrain defaultThresholds
      { pendingCount := 3, lastTrainingDate := none, now := 0, newInteractions := 0 } = true :=
  ⟨by decide,
    (should_retrain_iff defaultThresholds
      { pendingCount := 3, lastTrainingDate := none, now := 0, newInteractions := 0 }
      (by decide)).mpr ⟨by decide, Or.inl (by decide)⟩⟩

/-! ## Claim C7 -/

theorem upload_db_localDbExists (st : SyncState) (t : Int) :
    (upload_db st t).1.localDbExists = st.localDbExists := by
  unfold upload_db
  cases h : st.localDbExists <;> simp [h]

theorem upload_db_trace_pushes (ts : List Int) :
    ∀ st : SyncState, (upload_db_trace st ts).2 = if st.localDbExists then ts else [] := by
  induction ts with
  | nil => intro st; cases h : st.localDbExists <;> simp [upload_db_trace, h]
  | cons t ts ih =>
      intro st
      cases h : st.localDbExists
      · simp [upload_db_trace, upload_db, h, ih]
      · simp [upload_db_trace, upload_db, h, ih]

theorem sync_step_cases (st : MemSyncState) (t : Int) (ok : Bool) :
    (sync_memory_db_to_dropbox st t ok = (st, false)) ∨
    (sync_memory_db_to_dropbox st t ok = ({ st with last_db_sync_time := t }, true) ∧
      st.last_db_sync_time + DROPBOX_DB_SYNC_INTERVAL ≤ t) := by
  unfold sync_memory_db_to_dropbox
  cases h1 : st.dbInitialized
  · simp [h1]
  · by_cases h2 : t - st.last_db_sync_time < DROPBOX_DB_SYNC_INTERVAL
    · simp [h1, h2]
    · cases h3 : ok
      · simp [h1, h2, h3]
      · right
        refine ⟨by simp [h1, h2, h3], ?_⟩
        omega

theorem sync_trace_gaps (cs : List (Int × Bool)) :
    ∀ st : MemSyncState,
      (∀ p ∈ (sync_trace st cs).2,
        st.last_db_sync_time + DROPBOX_DB_SYNC_INTERVAL ≤ p) ∧
      List.Chain' (fun a b => a + DROPBOX_DB_SYNC_INTERVAL ≤ b) (sync_trace st cs).2 := by
  induction cs with
  | nil =>
      intro st
      exact ⟨by intro p hp; simp [sync_trace] at hp, by simp [sync_trace]⟩
  | cons c cs ih =>
      intro st
      rcases sync_step_cases st c.1 c.2 with hstep | ⟨hstep, hge⟩
      · have hv : sync_trace st (c :: cs) = ((sync_trace st cs).1, (sync_trace st cs).2) := by
          simp [sync_trace, hstep]
        rw [hv]
        exact ih st
      · have hv : sync_trace st (c :: cs)
            = ((sync_trace { st with last_db_sync_time := c.1 } cs).1,
              c.1 :: (sync_trace { st with last_db_sync_time := c.1 } cs).2) := by
          simp [sync_trace, hstep]
        rw [hv]
        obtain ⟨ihall, ihchain⟩ := ih { st with last_db_sync_time := c.1 }
        constructor
        · intro p hp
          rcases List.mem_cons.mp hp with rfl | hp2
          · exact hge
          · have := ihall p hp2
            simp only [DROPBOX_DB_SYNC_INTERVAL] at *
            omega
        · rw [List.chain'_cons']
          refine ⟨?_, ihchain⟩
          intro y hy
          exact ihall y (List.mem_of_mem_head? hy)

/-- C7 counterexample: two upload_db calls one second apart both perform an
upload; the claimed at-most-one-push-per-60-seconds coalescing does not exist
on this path. -/
theorem upload_db_no_rate_limit_cex :
    (upload_db_trace { last_db_sync := 0, localDbExists := true } [0, 1]).2 = [0, 1] ∧
    (1 : Int) - 0 < DROPBOX_DB_SYNC_INTERVAL := by decide

/-- C7 amended: upload_db pushes the snapshot on every call whenever the local
database file exists (its last_db_sync stamp only throttles downloads in
get_db_path); the 60-second rate limit exists only on the in-memory database
sync path, where calls inside the interval are dropped rather than queued and
so successive successful pushes are at least the interval apart. -/
theorem db_snapshot_push_spec (st1 : SyncState) (ts1 : List Int) (st2 : MemSyncState)
    (cs2 : List (Int × Bool)) :
    ((upload_db_trace st1 ts1).2 = if st1.localDbExists then ts1 else []) ∧
    (∀ p ∈ (sync_trace st2 cs2).2,
      st2.last_db_sync_time + DROPBOX_DB_SYNC_INTERVAL ≤ p) ∧
    List.Chain' (fun a b => a + DROPBOX_DB_SYNC_INTERVAL ≤ b) (sync_trace st2 cs2).2 :=
  ⟨upload_db_trace_pushes ts1 st1, (sync_trace_gaps cs2 st2).1, (sync_trace_gaps cs2 st2).2⟩

/-- Witness for C7 amended: a throttled schedule pushes at 0 and 70 only. -/
theorem db_snapshot_push_spec_witness :
    ((upload_db_trace { last_db_sync := 0, localDbExists := true } [5, 6]).2 = [5, 6]) ∧
    ((0 : Int) + DROPBOX_DB_SYNC_INTERVAL ≤ 70) :=
  ⟨(db_snapshot_push_spec { last_db_sync := 0, localDbExists := true } [5, 6]
      { last_db_sync_time := 0, dbInitialized := true } [(70, true)]).1,
    (db_snapshot_push_spec { last_db_sync := 0, localDbExists := true } [5, 6]
      { last_db_sync_time := 0, dbInitialized := true } [(70, true)]).2.1 70 (by decide)⟩

/-! ## Claim C8 -/

/-- An oversized but otherwise well-formed upload request: 601 MB. -/
def oversizedRequest : UploadRequest :=
  { hasModelFile := true, filename := "model.mlmodel", deviceId := some "d1",
    appVersion := some "1.0", description := some "big", fileSize := 601 * 1024 * 1024 }

/-- A request with the wrong extension. -/
def wrongExtensionRequest : UploadRequest :=
  { hasModelFile := true, filename := "model.bin", deviceId := some "d1",
    appVersion := some "1.0", description := some "", fileSize := 10 }

/-- C8: the extension check works (a non-.mlmodel upload gets 400 with no blob
or row), but an upload exceeding MAX_UPLOAD_SIZE_MB is accepted with 200 and
stored: no code path reads the configured limit, so the claimed 400 never
happens. -/
theorem upload_model_oversize_accepted :
    MAX_UPLOAD_SIZE_MB * 1024 * 1024 < oversizedRequest.fileSize ∧
    upload_model oversizedRequest true
      = { status := .ok200, blobStored := true, rowStored := true } ∧
    upload_model wrongExtensionRequest true
      = { status := .badRequest400, blobStored := false, rowStored := false } := by
  decide

/-! ## Claim C9 -/

/-- The token-manager state of the C9 scenarios: an expired access token with
usable refresh credentials. -/
def expiredTokenState : TMState :=
  { access_token := some "stale", refresh_token := some "r", app_key := some "k",
    app_secret := some "sec", expiry_time := some 10, last_refresh_attempt := 0,
    auto_refresh := true }

/-- C9 counterexample: at time 20 the stored token (expiry 10) is expired, but
the last refresh attempt was 20 seconds ago, inside the 60-second cooldown, so
refresh_token_if_needed returns without refreshing and get_valid_access_token
hands back the expired token, which is neither fresh nor null. -/
theorem get_valid_access_token_expired_cex :
    (get_valid_access_token expiredTokenState 20 (.ok "fresh" (some 14400))).1
        = some "stale" ∧
    (get_valid_access_token expiredTokenState 20 (.ok "fresh" (some 14400))).2.expiry_time
        = some 10 ∧
    (10 : Int) ≤ 20 := by decide

/-- C9 amended: when the stored token is expired, auto refresh is on, refresh
token and app credentials are present, the cooldown has elapsed and the refresh
endpoint answers 200 with a positive expires_in, get_valid_access_token returns
the fresh token whose stored expiry lies strictly in the future; outside these
hypotheses (cooldown active, refresh failing, auto_refresh off) the expired
token itself is returned. -/
theorem get_valid_access_token_after_refresh (st : TMState) (now : Int) (tok : String)
    (n e : Int) (rt ak asec : String)
    (hauto : st.auto_refresh = true)
    (hexp : st.expiry_time = some e) (he : e ≤ now)
    (hrt : st.refresh_token = some rt)
    (hak : st.app_key = some ak) (has : st.app_secret = some asec)
    (hcool : refresh_cooldown ≤ now - st.last_refresh_attempt)
    (hn : 0 < n) :
    (get_valid_access_token st now (.ok tok (some n))).1 = some tok ∧
    (get_valid_access_token st now (.ok tok (some n))).2.expiry_time = some (now + n) ∧
    now < now + n := by
  have hsr : ∀ st' : TMState, st'.expiry_time = some e →
      st'.should_refresh now = true := by
    intro st' hx
    unfold TMState.should_refresh
    cases hA : (st'.access_token.isNone && st'.refresh_token.isSome)
    · rw [hx]
      simp [he]
    · simp
  have hc2 : ¬ (now - st.last_refresh_attempt < refresh_cooldown) := by omega
  unfold get_valid_access_token
  rw [hauto, hsr st hexp]
  simp only [Bool.and_self, if_true]
  unfold refresh_token_if_needed
  rw [if_neg hc2]
  simp only [hsr, hexp, Bool.not_true, Bool.false_eq_true, if_false, hrt, hak, has,
    Option.isNone_some, Bool.or_self]
  unfold refresh_access_token
  refine ⟨rfl, rfl, by omega⟩

/-- Witness for C9 amended at the expired-token state, 100 seconds in. -/
theorem get_valid_access_token_after_refresh_witness :
    (get_valid_access_token expiredTokenState 100 (.ok "fresh" (some 14400))).1
        = some "fresh" ∧
    (get_valid_access_token expiredTokenState 100 (.ok "fresh" (some 14400))).2.expiry_time
        = some (100 + 14400) ∧
    (100 : Int) < 100 + 14400 :=
  get_valid_access_token_after_refresh expiredTokenState 100 "fresh" 14400 10 "r" "k" "sec"
    rfl rfl (by decide) rfl rfl rfl (by decide) (by decide)

/-! ## Claim C10 -/

/-- C10: GET /api/ai/latest-model always answers success with a version string;
when the model_versions table is empty or the database read fails the fallback
info reports version 1.0.0 with accuracy 0 and training_data_size 0, and the
download URL points at version 1.0.0. -/
theorem latest_model_total (dbOk : Bool) (rows : List MVRow) (nowIso host : String) :
    (latest_model dbOk rows nowIso host).success = true ∧
    ((dbOk = false ∨ rows = []) →
      (latest_model dbOk rows nowIso host).latestModelVersion = "1.0.0" ∧
      (get_latest_model_info dbOk rows nowIso).accuracy = 0 ∧
      (get_latest_model_info dbOk rows nowIso).training_data_size = 0 ∧
      (latest_model dbOk rows nowIso host).modelDownloadURL
        = "https://" ++ host ++ "/api/ai/models/" ++ "1.0.0") := by
  refine ⟨rfl, ?_⟩
  intro h
  rcases h with h | h
  · subst h
    exact ⟨rfl, rfl, rfl, rfl⟩
  · subst h
    cases dbOk <;> exact ⟨rfl, rfl, rfl, rfl⟩

/-- Witness for C10 on a failed read of an empty table. -/
theorem latest_model_total_witness :
    (latest_model false [] "2025-01-01" "host").success = true ∧
    ((latest_model false [] "2025-01-01" "host").latestModelVersion = "1.0.0" ∧
      (get_latest_model_info false [] "2025-01-01").accuracy = 0 ∧
      (get_latest_model_info false [] "2025-01-01").training_data_size = 0 ∧
      (latest_model false [] "2025-01-01" "host").modelDownloadURL
        = "https://" ++ "host" ++ "/api/ai/models/" ++ "1.0.0") :=
  ⟨(latest_model_total false [] "2025-01-01" "host").1,
    (latest_model_total false [] "2025-01-01" "host").2 (Or.inl rfl)⟩

end MainServer
